import Mathlib

/-!
Verification of the CodeCraft AI Agent front-end (src/index.tsx, src/vite.config.ts).

The embedding models text as `List Char`.  All definitions are translated
directly from the TypeScript source:

* `resolveKey` embeds `getGenAI` (src/index.tsx lines 15-27): the credential
  lookup `process.env.API_KEY || process.env.GEMINI_API_KEY` followed by the
  falsy check that throws a Configuration error.
* `splitFence`, `codeChunkSeg`, `splitBold`, `classifySpan`, `proseChunkSegs`,
  `chunkSegs`, `render` embed `SimpleMarkdownRenderer` (lines 190-228).
* `generateCode` / `generateClick` embed the generator panel's `generateCode`
  handler (lines 238-280) and the button guard `disabled={loading ||
  !description.trim()}` (lines 317-323).
* `applyChunk` / `chatTurnAfter` / `sendMessage` embed the chat panel's
  `sendMessage` handler (lines 416-454) together with `initChat`
  (lines 390-404).

JavaScript semantics that matter here and how they are modelled:
* `String.prototype.trim` removes whitespace from both ends; `trimChars`
  models it for the whitespace characters that occur in this code base.
* `s.split("x```y")`-style splitting on the literal three-backtick fence is
  `splitFence`; like the JavaScript original it keeps empty pieces, so
  `n` fences always yield `n + 1` chunks.
* `part.split(/(\*\*.*?\*\*)/g)` splits with a captured delimiter: the result
  interleaves the non-matching stretches with the matches themselves, matches
  being found left to right with a lazy (shortest-first) middle that cannot
  cross a line terminator.  `splitBold` reproduces this scan.
* A missing environment variable is `Option.none`; a present one is
  `Option.some` of its characters.  `undefined` and `""` are both falsy.
* Streamed responses are modelled by `StreamOutcome`: the initial request
  `await` may throw (`connectFail`), the stream may end normally (`ok`) or a
  chunk `await` may throw after some chunks (`midFail`).
-/

namespace CodeCraft

/-- JavaScript whitespace as used by `String.prototype.trim`, restricted to
the characters that can occur in this application's strings. -/
def isJsSpace (c : Char) : Bool :=
  c == ' ' || c == '\t' || c == '\n' || c == '\r' ||
    c == Char.ofNat 11 || c == Char.ofNat 12 || c == Char.ofNat 160

/-- Model of `s.trim()`: drop whitespace from both ends. -/
def trimChars (l : List Char) : List Char :=
  ((l.dropWhile isJsSpace).reverse.dropWhile isJsSpace).reverse

/-- The backquote character that makes up the code-fence delimiter. -/
def bq : Char := Char.ofNat 96

/-- Prepend a character to the first piece of a split result (used while
splitting: the character belongs to the chunk currently being read). -/
def withHead (c : Char) : List (List Char) → List (List Char)
  | [] => [[c]]
  | p :: ps => (c :: p) :: ps

/-- Model of `content.split(/```/g)` (src/index.tsx line 193): split on the
literal three-backquote fence, keeping empty pieces, scanning left to right
with non-overlapping occurrences. -/
def splitFence : List Char → List (List Char)
  | c1 :: c2 :: c3 :: rest =>
    if c1 = bq ∧ c2 = bq ∧ c3 = bq then [] :: splitFence rest
    else withHead c1 (splitFence (c2 :: c3 :: rest))
  | [c1, c2] => [[c1, c2]]
  | [c1] => [[c1]]
  | [] => [[]]

/-- Inverse direction of `splitFence`: interleave the chunks with fences. -/
def fenceJoin : List (List Char) → List Char
  | [] => []
  | [p] => p
  | p :: q :: ps => p ++ bq :: bq :: bq :: fenceJoin (q :: ps)

/-- Display segments produced by `SimpleMarkdownRenderer`: a prose block is a
list of inline spans, a code block carries a language tag and a body. -/
inductive Inline where
  | plain (text : List Char)
  | bold (text : List Char)
deriving DecidableEq, Repr

inductive Segment where
  | prose (spans : List Inline)
  | code (language : List Char) (body : List Char)
deriving DecidableEq, Repr

/-- Model of `part.indexOf('\n')` followed by the two `substring` calls
(src/index.tsx lines 200-207): `none` when the chunk has no line break,
otherwise the text before the first line break and the text after it. -/
def splitAtNewline : List Char → Option (List Char × List Char)
  | [] => none
  | c :: rest =>
    if c = '\n' then some ([], rest)
    else
      match splitAtNewline rest with
      | some (pre, post) => some (c :: pre, post)
      | none => none

/-- Default language used by the source when a code chunk has no line break
(src/index.tsx line 201: `let language = 'text'`). -/
def textLang : List Char := ("text").data

/-- Code-chunk processing (src/index.tsx lines 198-208): the text before the
first line break, trimmed, becomes the language; the rest, trimmed, becomes
the body.  Without a line break the language defaults to `text` and the whole
chunk, trimmed, is the body. -/
def codeChunkSeg (part : List Char) : Segment :=
  match splitAtNewline part with
  | none => Segment.code textLang (trimChars part)
  | some (pre, post) => Segment.code (trimChars pre) (trimChars post)

/-- The asterisk character of the bold marker. -/
def star : Char := '*'

/-- Characters matched by `.` in a JavaScript regex without the `s` flag:
anything except a line terminator. -/
def isDotChar (c : Char) : Bool :=
  !(c == '\n' || c == '\r' || c == Char.ofNat 8232 || c == Char.ofNat 8233)

/-- Scan for the lazy closing `**` of a bold match: returns the middle
(shortest possible, only `.`-matchable characters) and the input after the
closing marker. -/
def findBoldClose : List Char → Option (List Char × List Char)
  | c1 :: c2 :: rest =>
    if c1 == star && c2 == star then some ([], rest)
    else if isDotChar c1 then
      match findBoldClose (c2 :: rest) with
      | some (mid, r) => some (c1 :: mid, r)
      | none => none
    else none
  | _ => none

/-- Try to match `/\*\*.*?\*\*/` at the head of the input; on success return
the whole match (delimiters included) and the remaining input. -/
def matchBoldAt : List Char → Option (List Char × List Char)
  | c1 :: c2 :: rest =>
    if c1 == star && c2 == star then
      match findBoldClose rest with
      | some (mid, r) => some (star :: star :: (mid ++ [star, star]), r)
      | none => none
    else none
  | _ => none

/-- Worker for `splitBold`: walks the input one character at a time.  `skip`
counts characters that belong to a match already emitted, `acc` holds the
current non-matching stretch (reversed), `out` holds emitted pieces
(reversed).  Structured this way the recursion is structural, so that the
function evaluates inside the kernel. -/
def splitBoldGo : List Char → Nat → List Char → List (List Char) → List (List Char)
  | [], _, acc, out => (acc.reverse :: out).reverse
  | _ :: rest, skip + 1, acc, out => splitBoldGo rest skip acc out
  | c :: rest, 0, acc, out =>
    match matchBoldAt (c :: rest) with
    | some (m, _) => splitBoldGo rest (m.length - 1) [] (m :: acc.reverse :: out)
    | none => splitBoldGo rest 0 (c :: acc) out

/-- Model of `part.split(/(\*\*.*?\*\*)/g)` (src/index.tsx line 213): split
with captured delimiters, so matches appear in the output interleaved with
the non-matching stretches. -/
def splitBold (part : List Char) : List (List Char) :=
  splitBoldGo part 0 [] []

/-- Model of `subPart.startsWith('**')`. -/
def startsWithBold : List Char → Bool
  | c1 :: c2 :: _ => c1 == star && c2 == star
  | _ => false

/-- Model of `subPart.endsWith('**')`. -/
def endsWithBold (s : List Char) : Bool :=
  startsWithBold s.reverse

/-- Model of `subPart.slice(2, -2)`: drop two characters at each end. -/
def strip2 (s : List Char) : List Char :=
  (s.drop 2).take (s.length - 4)

/-- Per-span rendering (src/index.tsx lines 216-221): a span that starts and
ends with `**` becomes a bold span with the ends sliced off, anything else a
plain span. -/
def classifySpan (s : List Char) : Inline :=
  if startsWithBold s && endsWithBold s then Inline.bold (strip2 s)
  else Inline.plain s

/-- Prose-chunk processing (src/index.tsx lines 210-223): a chunk that is
empty after trimming renders nothing; otherwise the chunk is split on the
bold pattern and each span classified. -/
def proseChunkSegs (part : List Char) : List Segment :=
  if trimChars part = [] then []
  else [Segment.prose ((splitBold part).map classifySpan)]

/-- The segments contributed by the chunk at (0-based) position `i` of the
fence split: odd positions are code blocks, even positions prose
(src/index.tsx lines 197-224). -/
def chunkSegs (i : Nat) (part : List Char) : List Segment :=
  if i % 2 = 1 then [codeChunkSeg part] else proseChunkSegs part

/-- Render the chunk list starting at position `i`. -/
def renderPartsFrom : Nat → List (List Char) → List Segment
  | _, [] => []
  | i, p :: ps => chunkSegs i p ++ renderPartsFrom (i + 1) ps

/-- Model of `SimpleMarkdownRenderer` (src/index.tsx lines 190-228): the
empty string renders nothing (`if (!content) return null`); otherwise the
input is fence-split and every chunk rendered by position parity. -/
def render (content : List Char) : List Segment :=
  if content = [] then [] else renderPartsFrom 0 (splitFence content)

/-- Build-time environment (src/vite.config.ts lines 4-11): the two
recognized variables, each either absent (`none`) or a string. -/
structure Env where
  apiKey : Option (List Char)
  geminiApiKey : Option (List Char)
deriving DecidableEq, Repr

/-- JavaScript `a || b` on two possibly-undefined strings: `a` when it is a
non-empty string, otherwise `b` (the empty string is falsy). -/
def jsOrString (a b : Option (List Char)) : Option (List Char) :=
  match a with
  | some s => if s = [] then b else some s
  | none => b

/-- Credential resolution inside `getGenAI` (src/index.tsx lines 15-27):
`process.env.API_KEY || process.env.GEMINI_API_KEY`, then the `!apiKey`
check.  `some k` means the client is constructed with key `k`; `none` means
the Configuration error is thrown. -/
def resolveKey (env : Env) : Option (List Char) :=
  match jsOrString env.apiKey env.geminiApiKey with
  | some s => if s = [] then none else some s
  | none => none

/-- The message of the error thrown by `getGenAI` (src/index.tsx line 22). -/
def configErrorMessage : List Char :=
  ("Configuration Error: The API_KEY or GEMINI_API_KEY environment variable is missing. Please add it in your Vercel/Netlify settings.").data

/-- Outcome of one streaming request, as seen by the awaiting caller: the
initial `await` may throw, the stream may deliver its chunks and end, or a
chunk `await` may throw after some chunks were delivered. -/
inductive StreamOutcome where
  | connectFail (errMsg : List Char)
  | ok (chunks : List (List Char))
  | midFail (chunks : List (List Char)) (errMsg : List Char)
deriving DecidableEq, Repr

/-- State of the generator panel (src/index.tsx lines 233-236). -/
structure GenState where
  description : List Char
  language : List Char
  loading : Bool
  output : Option (List Char)
deriving DecidableEq, Repr

/-- Fixed pieces of the generation prompt template (src/index.tsx
lines 248-256). -/
def promptPart1 : List Char :=
  ("Act as an expert coding tutor for beginners.\n      Task: Write a ").data

def promptPart2 : List Char := (" program that ").data

def promptPart3 : List Char :=
  (".\n      \n      STRICT REQUIREMENTS:\n      1. SIMPLICITY IS PRIORITY: Use the absolute simplest logic and standard libraries. Avoid advanced concepts (like list comprehensions, heavy modularization, or external packages) unless strictly necessary.\n      2. ZERO ERRORS: The code MUST be 100% correct, compilable, and runnable. Double-check syntax.\n      3. LINE-BY-LINE COMMENTS: Add clear, simple comments to almost every line explaining what it does.\n      4. EXPLANATION: After the code, explain the logic in plain English as if teaching a 10-year-old.\n      5. FORMAT: Provide the code inside a markdown code block.").data

/-- The instruction string sent by the generator (src/index.tsx line 248):
the template with language and description interpolated verbatim. -/
def buildPrompt (language description : List Char) : List Char :=
  promptPart1 ++ language ++ promptPart2 ++ description ++ promptPart3

/-- The diagnostic written into the result buffer on any generation failure
(src/index.tsx line 276), with the caught error's message interpolated. -/
def genErrorTemplate (m : List Char) : List Char :=
  ("**CONFIGURATION ERROR**\n\n").data ++ m ++
    ("\n\nTo fix this on Vercel:\n1. Go to **Settings** > **Environment Variables**.\n2. Add `API_KEY` or `GEMINI_API_KEY` with your Google Gemini API Key.\n3. Redeploy your project.").data

/-- The generator handler `generateCode` (src/index.tsx lines 238-280) as a
function from the pre-state, the environment, and the stream outcome to the
post-state plus the request that was issued (`none` when no streaming request
was made).  A blank description returns before touching any state; otherwise
the key is resolved (a missing key throws into the catch block before any
network call), the streaming request is issued, and the result buffer ends
as the chunk concatenation or, on any failure, the diagnostic template.  The
`finally` clause clears the loading flag on every path that set it. -/
def generateCode (pre : GenState) (env : Env) (stream : StreamOutcome) :
    GenState × Option (List Char) :=
  if trimChars pre.description = [] then (pre, none)
  else
    match resolveKey env with
    | none =>
      ({ pre with
          loading := false
          output := some (genErrorTemplate configErrorMessage) }, none)
    | some _ =>
      match stream with
      | StreamOutcome.connectFail err =>
        ({ pre with
            loading := false
            output := some (genErrorTemplate err) },
         some (buildPrompt pre.language pre.description))
      | StreamOutcome.ok chunks =>
        ({ pre with
            loading := false
            output := some chunks.flatten },
         some (buildPrompt pre.language pre.description))
      | StreamOutcome.midFail _ err =>
        ({ pre with
            loading := false
            output := some (genErrorTemplate err) },
         some (buildPrompt pre.language pre.description))

/-- Invoking the generator from the UI: the Generate button carries
`disabled={loading || !description.trim()}` (src/index.tsx lines 317-323),
so a click while loading or with a blank description never reaches the
handler. -/
def generateClick (pre : GenState) (env : Env) (stream : StreamOutcome) :
    GenState × Option (List Char) :=
  if pre.loading then (pre, none)
  else if trimChars pre.description = [] then (pre, none)
  else generateCode pre env stream

/-- A transcript entry (src/index.tsx line 381): a role string and a text. -/
structure ChatMsg where
  role : List Char
  text : List Char
deriving DecidableEq, Repr

def userRole : List Char := ("user").data

def modelRole : List Char := ("model").data

/-- State of the chat panel (src/index.tsx lines 381-387): transcript, input
box, typing indicator, and whether `chatSessionRef.current` holds a session. -/
structure ChatState where
  messages : List ChatMsg
  input : List Char
  isTyping : Bool
  session : Bool
deriving DecidableEq, Repr

/-- Overwrite the text of the last transcript entry (src/index.tsx
lines 441-445: `newArr[newArr.length - 1].text = fullResponse`).  The source
only runs this after appending an entry, so the list is never empty there. -/
def setLastText : List ChatMsg → List Char → List ChatMsg
  | [], _ => []
  | [m], t => [ChatMsg.mk m.role t]
  | m :: m2 :: rest, t => m :: setLastText (m2 :: rest) t

/-- One chunk arrival (src/index.tsx lines 439-446): the running buffer grows
by the chunk's text (`fullResponse += chunk.text || ""`, an absent text
contributing nothing, i.e. the empty chunk) and the last entry's text is
replaced wholesale by the buffer. -/
def applyChunk (st : List ChatMsg × List Char) (c : List Char) :
    List ChatMsg × List Char :=
  (setLastText st.1 (st.2 ++ c), st.2 ++ c)

/-- The transcript after the streaming loop of one exchange: starting from
the transcript with the user entry already appended, the source appends an
empty model entry (line 437) and then folds the chunks in arrival order. -/
def chatTurnAfter (msgs1 : List ChatMsg) (chunks : List (List Char)) :
    List ChatMsg :=
  (chunks.foldl applyChunk (msgs1 ++ [ChatMsg.mk modelRole []], [])).1

/-- The message of the error thrown when lazy re-initialization fails
(src/index.tsx line 430). -/
def chatMissingKeyMsg : List Char :=
  ("Missing API_KEY or GEMINI_API_KEY environment variable.").data

/-- The diagnostic entry appended by the chat catch block (src/index.tsx
line 450), with the caught error's message interpolated. -/
def chatErrorTemplate (m : List Char) : List Char :=
  ("**CONFIGURATION ERROR**: ").data ++ m ++
    (". Please check Vercel settings.").data

/-- `initChat` (src/index.tsx lines 390-404) succeeds exactly when
`getGenAI` does not throw, i.e. when a credential resolves. -/
def initChatOk (env : Env) : Bool :=
  (resolveKey env).isSome

/-- The chat handler `sendMessage` (src/index.tsx lines 416-454) as a
function from the pre-state, the environment, and the stream outcome to the
post-state plus the message sent over the network (`none` when no request was
made).  Blank input returns before touching any state.  Otherwise the user
entry is appended, the input cleared, and the typing flag raised; a missing
session is re-initialized, and if that fails the catch block appends the
diagnostic entry without any network call.  With a session, the request is
sent: a connect failure appends only the diagnostic entry, a clean stream
leaves the folded transcript, and a mid-stream failure leaves the partial
entry and appends the diagnostic after it.  The `finally` clause clears the
typing flag on every such path. -/
def sendMessage (pre : ChatState) (env : Env) (stream : StreamOutcome) :
    ChatState × Option (List Char) :=
  if trimChars pre.input = [] then (pre, none)
  else
    let msgs1 := pre.messages ++ [ChatMsg.mk userRole pre.input]
    if pre.session = false ∧ initChatOk env = false then
      ({ messages := msgs1 ++ [ChatMsg.mk modelRole (chatErrorTemplate chatMissingKeyMsg)]
         input := []
         isTyping := false
         session := false }, none)
    else
      match stream with
      | StreamOutcome.connectFail err =>
        ({ messages := msgs1 ++ [ChatMsg.mk modelRole (chatErrorTemplate err)]
           input := []
           isTyping := false
           session := true }, some pre.input)
      | StreamOutcome.ok chunks =>
        ({ messages := chatTurnAfter msgs1 chunks
           input := []
           isTyping := false
           session := true }, some pre.input)
      | StreamOutcome.midFail chunks err =>
        ({ messages := chatTurnAfter msgs1 chunks
             ++ [ChatMsg.mk modelRole (chatErrorTemplate err)]
           input := []
           isTyping := false
           session := true }, some pre.input)

/-- The marker both failure diagnostics open with; a display text is a
Configuration-error diagnostic when it starts with this marker. -/
def configDiagnosticMark : List Char := ("**CONFIGURATION ERROR**").data

example : render [] = [] := by decide

example :
    render (("x").data ++ bq :: bq :: bq :: ("py\nprint(1)\n").data
        ++ bq :: bq :: bq :: ("y").data) =
      [Segment.prose [Inline.plain ("x").data],
       Segment.code ("py").data ("print(1)").data,
       Segment.prose [Inline.plain ("y").data]] := by decide

example :
    render ("a**b**c").data =
      [Segment.prose [Inline.plain ("a").data, Inline.bold ("b").data,
        Inline.plain ("c").data]] := by decide

theorem setLastText_append (ms : List ChatMsg) (m : ChatMsg) (t : List Char) :
    setLastText (ms ++ [m]) t = ms ++ [ChatMsg.mk m.role t] := by
  induction ms with
  | nil => rfl
  | cons a ms ih =>
    cases ms with
    | nil => simp [setLastText]
    | cons b ms' =>
      simpa [setLastText] using ih

theorem foldl_applyChunk (chunks : List (List Char)) :
    ∀ (ms : List ChatMsg) (r acc : List Char),
      chunks.foldl applyChunk (ms ++ [ChatMsg.mk r acc], acc) =
        (ms ++ [ChatMsg.mk r (acc ++ chunks.flatten)], acc ++ chunks.flatten) := by
  induction chunks with
  | nil => intro ms r acc; simp
  | cons c cs ih =>
    intro ms r acc
    have h1 : applyChunk (ms ++ [ChatMsg.mk r acc], acc) c
        = (ms ++ [ChatMsg.mk r (acc ++ c)], acc ++ c) := by
      simp [applyChunk, setLastText_append]
    rw [List.foldl_cons, h1, ih ms r (acc ++ c)]
    simp

theorem chatTurnAfter_eq (msgs1 : List ChatMsg) (chunks : List (List Char)) :
    chatTurnAfter msgs1 chunks
      = msgs1 ++ [ChatMsg.mk modelRole chunks.flatten] := by
  have h := foldl_applyChunk chunks msgs1 modelRole []
  simp only [chatTurnAfter, h, List.nil_append]

/-- Claim C1: in a single chat exchange whose stream delivers chunks
c1..cN in order, the final text of the model transcript entry for that turn
is the concatenation c1++...++cN, and after each chunk (that is, for every
prefix of the chunk sequence) the entry's text is exactly the concatenation
of the chunks so far — each overwrite fully replaces the text, never a
partial patch. -/
theorem C1_chat_stream_concatenation (pre : ChatState) (env : Env)
    (chunks : List (List Char))
    (hin : trimChars pre.input ≠ []) (hsess : pre.session = true) :
    (sendMessage pre env (StreamOutcome.ok chunks)).1.messages
        = pre.messages ++ [ChatMsg.mk userRole pre.input,
            ChatMsg.mk modelRole chunks.flatten] ∧
    ∀ (msgs1 : List ChatMsg) (i : Nat),
      chatTurnAfter msgs1 (chunks.take i)
        = msgs1 ++ [ChatMsg.mk modelRole (chunks.take i).flatten] := by
  constructor
  · simp [sendMessage, hin, hsess, chatTurnAfter_eq]
  · intro msgs1 i
    exact chatTurnAfter_eq msgs1 (chunks.take i)

theorem C1_witness :
    trimChars (("hi").data) ≠ [] ∧
    (sendMessage (ChatState.mk [] (("hi").data) false true) (Env.mk none none)
        (StreamOutcome.ok [("ab").data, ("c").data])).1.messages
      = [ChatMsg.mk userRole (("hi").data),
         ChatMsg.mk modelRole (("abc").data)] :=
  ⟨by decide,
    (C1_chat_stream_concatenation (ChatState.mk [] (("hi").data) false true)
        (Env.mk none none) [("ab").data, ("c").data]
        (by decide) rfl).1.trans (by decide)⟩

/-- Claim C3: clicking Generate while a generation is in flight (loading
flag set) is a no-op — state, including the result buffer, is unchanged and
no streaming request is issued.  The guard is the button's
`disabled={loading || !description.trim()}` condition. -/
theorem C3_loading_reentrancy_guard (pre : GenState) (env : Env)
    (stream : StreamOutcome) (h : pre.loading = true) :
    generateClick pre env stream = (pre, none) := by
  simp [generateClick, h]

theorem C3_witness :
    (GenState.mk (("sort a list").data) (("Python").data) true
        (some (("old").data))).loading = true ∧
    generateClick
        (GenState.mk (("sort a list").data) (("Python").data) true
          (some (("old").data)))
        (Env.mk (some (("k").data)) none) (StreamOutcome.ok [("x").data])
      = (GenState.mk (("sort a list").data) (("Python").data) true
          (some (("old").data)), none) :=
  ⟨rfl,
    C3_loading_reentrancy_guard
      (GenState.mk (("sort a list").data) (("Python").data) true
        (some (("old").data)))
      (Env.mk (some (("k").data)) none) (StreamOutcome.ok [("x").data]) rfl⟩

/-- Claim C7: invoking generate with a blank (empty or whitespace-only)
description issues no network request and leaves the whole state, in
particular the result buffer, unchanged — both for the handler itself and
for a button click. -/
theorem C7_blank_description_noop (pre : GenState) (env : Env)
    (stream : StreamOutcome) (h : trimChars pre.description = []) :
    generateCode pre env stream = (pre, none) ∧
    generateClick pre env stream = (pre, none) := by
  refine ⟨by simp [generateCode, h], ?_⟩
  by_cases hl : pre.loading <;> simp [generateClick, generateCode, h, hl]

theorem C7_witness :
    trimChars (("   ").data) = [] ∧
    generateCode (GenState.mk (("   ").data) (("Python").data) false none)
        (Env.mk (some (("k").data)) none) (StreamOutcome.ok [("x").data])
      = (GenState.mk (("   ").data) (("Python").data) false none, none) :=
  ⟨by decide,
    (C7_blank_description_noop
      (GenState.mk (("   ").data) (("Python").data) false none)
      (Env.mk (some (("k").data)) none) (StreamOutcome.ok [("x").data])
      (by decide)).1⟩

/-- Claim C10: credential resolution prefers API_KEY: a non-empty API_KEY is
used even when GEMINI_API_KEY is set; a missing or empty API_KEY falls back
to a non-empty GEMINI_API_KEY; the Configuration error (resolution `none`)
happens exactly when both are missing or empty. -/
theorem C10_credential_precedence (env : Env) :
    (∀ k, env.apiKey = some k → k ≠ [] → resolveKey env = some k) ∧
    ((env.apiKey = none ∨ env.apiKey = some []) →
      ∀ g, env.geminiApiKey = some g → g ≠ [] → resolveKey env = some g) ∧
    (resolveKey env = none ↔
      ((env.apiKey = none ∨ env.apiKey = some []) ∧
       (env.geminiApiKey = none ∨ env.geminiApiKey = some []))) := by
  obtain ⟨a, g⟩ := env
  refine ⟨?_, ?_, ?_⟩
  · intro k hk hkne
    subst hk
    simp [resolveKey, jsOrString, hkne]
  · rintro (h | h) g' hg hgne <;> subst hg <;>
      simp_all [resolveKey, jsOrString]
  · cases a with
    | none =>
      cases g with
      | none => simp [resolveKey, jsOrString]
      | some s => by_cases hs : s = [] <;> simp [resolveKey, jsOrString, hs]
    | some s =>
      by_cases hs : s = []
      · cases g with
        | none => simp [resolveKey, jsOrString, hs]
        | some u => by_cases hu : u = [] <;> simp [resolveKey, jsOrString, hs, hu]
      · simp [resolveKey, jsOrString, hs]

theorem C10_witness :
    resolveKey (Env.mk (some (("a").data)) (some (("b").data))) = some (("a").data) ∧
    resolveKey (Env.mk (some []) (some (("b").data))) = some (("b").data) ∧
    (resolveKey (Env.mk (some []) none) = none ↔
      (((some [] : Option (List Char)) = none ∨ (some [] : Option (List Char)) = some []) ∧
       ((none : Option (List Char)) = none ∨ (none : Option (List Char)) = some []))) :=
  ⟨(C10_credential_precedence (Env.mk (some (("a").data)) (some (("b").data)))).1
      (("a").data) rfl (by decide),
   (C10_credential_precedence (Env.mk (some []) (some (("b").data)))).2.1
      (Or.inr rfl) (("b").data) rfl (by decide),
   (C10_credential_precedence (Env.mk (some []) none)).2.2⟩

/-- Claim C9: every generate click and every send terminates with the
loading flag respectively typing flag cleared, whatever the outcome: the
success, connect-failure and mid-stream-failure paths all run the `finally`
clearing step, and the early returns never raise the flag (for any initial
flag value, a non-blank invocation always ends with the flag cleared). -/
theorem C9_flags_always_cleared (gpre : GenState) (cpre : ChatState)
    (env : Env) (gs cs : StreamOutcome) (hL : gpre.loading = false)
    (hT : cpre.isTyping = false) :
    (generateClick gpre env gs).1.loading = false ∧
    (sendMessage cpre env cs).1.isTyping = false ∧
    (trimChars gpre.description ≠ [] → ∀ L : Bool,
      (generateCode { gpre with loading := L } env gs).1.loading = false) ∧
    (trimChars cpre.input ≠ [] → ∀ T : Bool,
      (sendMessage { cpre with isTyping := T } env cs).1.isTyping = false) := by
  refine ⟨?_, ?_, ?_, ?_⟩
  · by_cases h1 : gpre.loading
    · simp [generateClick, h1, hL] at *
    · by_cases h2 : trimChars gpre.description = [] <;>
        cases hres : resolveKey env <;> cases gs <;>
          simp [generateClick, generateCode, h1, h2, hres, hL]
  · by_cases h1 : trimChars cpre.input = []
    · simp [sendMessage, h1, hT]
    · by_cases h2 : cpre.session = false ∧ initChatOk env = false <;>
        cases cs <;> simp [sendMessage, h1, h2]
  · intro h2 L
    cases hres : resolveKey env <;> cases gs <;>
      simp [generateCode, h2, hres]
  · intro h2 T
    by_cases h3 : cpre.session = false ∧ initChatOk env = false <;>
      cases cs <;> simp [sendMessage, h2, h3]

theorem C9_witness :
    (GenState.mk (("task").data) (("C").data) false none).loading = false ∧
    (ChatState.mk [] (("q").data) false false).isTyping = false ∧
    (generateClick (GenState.mk (("task").data) (("C").data) false none)
        (Env.mk none none)
        (StreamOutcome.midFail [("p").data] (("boom").data))).1.loading = false ∧
    (sendMessage (ChatState.mk [] (("q").data) false false) (Env.mk none none)
        (StreamOutcome.connectFail (("boom").data))).1.isTyping = false :=
  ⟨rfl, rfl,
    (C9_flags_always_cleared (GenState.mk (("task").data) (("C").data) false none)
        (ChatState.mk [] (("q").data) false false) (Env.mk none none)
        (StreamOutcome.midFail [("p").data] (("boom").data))
        (StreamOutcome.connectFail (("boom").data)) rfl rfl).1,
    (C9_flags_always_cleared (GenState.mk (("task").data) (("C").data) false none)
        (ChatState.mk [] (("q").data) false false) (Env.mk none none)
        (StreamOutcome.midFail [("p").data] (("boom").data))
        (StreamOutcome.connectFail (("boom").data)) rfl rfl).2.1⟩

/-- Claim C8: when no recognized environment variable holds a non-empty
credential, a generation attempt and a chat send attempt (in the reachable
no-session state: `initChatOk` shows a session can never be established
without a credential) both fail with no network request issued, and each
displays a Configuration-error diagnostic — the generator in its result
buffer, the chat as an appended model transcript entry; both diagnostics
open with the `**CONFIGURATION ERROR**` marker. -/
theorem C8_missing_credential (env : Env) (gpre : GenState) (cpre : ChatState)
    (gs cs : StreamOutcome) (hkey : resolveKey env = none)
    (hdesc : trimChars gpre.description ≠ []) (hin : trimChars cpre.input ≠ [])
    (hsess : cpre.session = false) :
    generateCode gpre env gs =
      ({ gpre with
          loading := false
          output := some (genErrorTemplate configErrorMessage) }, none) ∧
    sendMessage cpre env cs =
      ({ messages := cpre.messages ++ [ChatMsg.mk userRole cpre.input,
           ChatMsg.mk modelRole (chatErrorTemplate chatMissingKeyMsg)]
         input := []
         isTyping := false
         session := false }, none) ∧
    initChatOk env = false ∧
    configDiagnosticMark.isPrefixOf (genErrorTemplate configErrorMessage) = true ∧
    configDiagnosticMark.isPrefixOf (chatErrorTemplate chatMissingKeyMsg) = true := by
  have hinit : initChatOk env = false := by simp [initChatOk, hkey]
  refine ⟨by simp [generateCode, hdesc, hkey], ?_, hinit, by decide, by decide⟩
  simp [sendMessage, hin, hsess, hinit]

theorem C8_witness :
    resolveKey (Env.mk none (some [])) = none ∧
    trimChars (("sort").data) ≠ [] ∧
    trimChars (("q").data) ≠ [] ∧
    (generateCode (GenState.mk (("sort").data) (("C").data) false none)
        (Env.mk none (some [])) (StreamOutcome.ok [])).2 = none ∧
    (sendMessage (ChatState.mk [] (("q").data) false false)
        (Env.mk none (some [])) (StreamOutcome.ok [])).2 = none := by
  have h := C8_missing_credential (Env.mk none (some []))
      (GenState.mk (("sort").data) (("C").data) false none)
      (ChatState.mk [] (("q").data) false false)
      (StreamOutcome.ok []) (StreamOutcome.ok [])
      (by decide) (by decide) (by decide) rfl
  exact ⟨by decide, by decide, by decide,
    by rw [h.1], by rw [h.2.1]⟩

/-- A sequence of render passes, one per buffer handed to the component:
`SimpleMarkdownRenderer` keeps no state of its own, so each pass is just
`render` of that pass's buffer. -/
def renderSequence (contents : List (List Char)) : List (List Segment) :=
  contents.map render

/-- Claim C6: the renderer is a pure, deterministic function of its input —
the segments produced for a buffer do not depend on any earlier render pass
(no hidden state), and rendering the same buffer twice yields identical
segment lists. -/
theorem C6_renderer_pure (hist : List (List Char)) (content : List Char) :
    renderSequence (hist ++ [content]) = renderSequence hist ++ [render content] ∧
    renderSequence [content, content] = [render content, render content] := by
  exact ⟨by simp [renderSequence], rfl⟩

theorem splitAtNewline_first (pre post : List Char) (h : '\n' ∉ pre) :
    splitAtNewline (pre ++ '\n' :: post) = some (pre, post) := by
  induction pre with
  | nil => simp [splitAtNewline]
  | cons c cs ih =>
    have hc : ¬ c = '\n' := fun e => h (by simp [e])
    have h' : '\n' ∉ cs := fun hm => h (List.mem_cons_of_mem _ hm)
    simp [splitAtNewline, hc, ih h']

/-- Claim C4: for a code chunk containing a line break, the text up to the
first line break, trimmed, is the segment's language tag (empty allowed),
and the remainder after that line break, trimmed of leading and trailing
whitespace, is the code body. -/
theorem C4_code_chunk_language_and_body (pre post : List Char)
    (h : '\n' ∉ pre) :
    codeChunkSeg (pre ++ '\n' :: post)
      = Segment.code (trimChars pre) (trimChars post) := by
  simp [codeChunkSeg, splitAtNewline_first pre post h]

theorem C4_witness :
    '\n' ∉ (("py").data) ∧
    codeChunkSeg ((("py").data) ++ '\n' :: (("print(1)\n").data))
      = Segment.code (("py").data) (("print(1)").data) :=
  ⟨by decide,
    (C4_code_chunk_language_and_body (("py").data) (("print(1)\n").data)
      (by decide)).trans (by decide)⟩

theorem withHead_ne_nil (c : Char) (L : List (List Char)) :
    withHead c L ≠ [] := by
  cases L <;> simp [withHead]

theorem splitFence_ne_nil (l : List Char) : splitFence l ≠ [] := by
  match l with
  | [] => simp [splitFence]
  | [c1] => simp [splitFence]
  | [c1, c2] => simp [splitFence]
  | c1 :: c2 :: c3 :: rest =>
    rw [splitFence]
    split
    · simp
    · exact withHead_ne_nil _ _

theorem fenceJoin_cons_of_ne_nil (p : List Char) (q : List (List Char))
    (hq : q ≠ []) :
    fenceJoin (p :: q) = p ++ bq :: bq :: bq :: fenceJoin q := by
  match q, hq with
  | r :: rs, _ => rfl

theorem fenceJoin_withHead (c : Char) (L : List (List Char)) (hL : L ≠ []) :
    fenceJoin (withHead c L) = c :: fenceJoin L := by
  match L, hL with
  | [p], _ => rfl
  | p :: q :: ps, _ => rfl

theorem fenceJoin_splitFence (l : List Char) :
    fenceJoin (splitFence l) = l := by
  induction l using splitFence.induct with
  | case1 c1 c2 c3 rest h ih =>
    obtain ⟨h1, h2, h3⟩ := h
    subst h1; subst h2; subst h3
    rw [splitFence, if_pos ⟨rfl, rfl, rfl⟩,
      fenceJoin_cons_of_ne_nil _ _ (splitFence_ne_nil rest), ih]
    rfl
  | case2 c1 c2 c3 rest h ih =>
    rw [splitFence, if_neg h, fenceJoin_withHead _ _ (splitFence_ne_nil _), ih]
  | case3 c1 c2 => rfl
  | case4 c1 => rfl
  | case5 => rfl

theorem renderPartsFrom_getLast (qs : List (List Char)) (p : List Char) :
    ∀ i : Nat, (i + qs.length) % 2 = 1 →
      (renderPartsFrom i (qs ++ [p])).getLast? = some (codeChunkSeg p) := by
  induction qs with
  | nil =>
    intro i hi
    simp only [List.length_nil, Nat.add_zero] at hi
    simp [renderPartsFrom, chunkSegs, hi]
  | cons q qs ih =>
    intro i hi
    have hi' : ((i + 1) + qs.length) % 2 = 1 := by
      simp only [List.length_cons] at hi
      omega
    have h2 := ih (i + 1) hi'
    have hne : renderPartsFrom (i + 1) (qs ++ [p]) ≠ [] := by
      intro he
      rw [he] at h2
      simp at h2
    rw [List.cons_append, renderPartsFrom,
      List.getLast?_append_of_ne_nil _ hne]
    exact h2

/-- Claim C2: splitting on the triple-backtick fence classifies the Nth
chunk (0-indexed) as prose when N is even and code when N is odd; the chunks
exactly reassemble the input (so the final chunk runs to the end of the
string); and when the final chunk's index is odd — an unterminated trailing
fence — the renderer's last segment is that chunk's code segment.  The
renderer is a total function of the input, so no input makes it throw. -/
theorem C2_fence_parity (content : List Char) (n : Nat) (p : List Char)
    (hn : (splitFence content)[n]? = some p) :
    (n % 2 = 1 → chunkSegs n p = [codeChunkSeg p]) ∧
    (n % 2 = 0 → chunkSegs n p = proseChunkSegs p) ∧
    fenceJoin (splitFence content) = content ∧
    (n % 2 = 1 → n + 1 = (splitFence content).length →
      (render content).getLast? = some (codeChunkSeg p)) := by
  refine ⟨fun h => by simp [chunkSegs, h], fun h => by simp [chunkSegs, h],
    fenceJoin_splitFence content, fun hodd hlen => ?_⟩
  have hne : splitFence content ≠ [] := splitFence_ne_nil content
  have hmem : p ∈ (splitFence content).getLast? := by
    rw [List.getLast?_eq_getElem?, ← hlen]
    simpa using hn
  have hdecomp : (splitFence content).dropLast ++ [p] = splitFence content :=
    List.dropLast_append_getLast? p hmem
  have hqlen : (splitFence content).dropLast.length = n := by
    rw [List.length_dropLast, ← hlen]
    omega
  have hcne : content ≠ [] := by
    intro he
    subst he
    have : (splitFence ([] : List Char)).length = 1 := rfl
    omega
  have hlast := renderPartsFrom_getLast (splitFence content).dropLast p 0
    (by simpa [hqlen] using hodd)
  rw [render, if_neg hcne, ← hdecomp]
  simpa [hqlen] using hlast

theorem C2_witness :
    (splitFence ((("a").data) ++ bq :: bq :: bq :: (("b").data)))[1]?
      = some (("b").data) ∧
    (render ((("a").data) ++ bq :: bq :: bq :: (("b").data))).getLast?
      = some (Segment.code textLang (("b").data)) := by
  refine ⟨by decide, ?_⟩
  have h := C2_fence_parity ((("a").data) ++ bq :: bq :: bq :: (("b").data))
    1 (("b").data) (by decide)
  exact (h.2.2.2 (by decide) (by decide)).trans (by decide)

/-- Tail check for `specBoldSpan`: the rest of the span after the opening
marker must be some `.`-matchable middle followed by the closing `**`. -/
def checkBoldTail : List Char → Bool
  | [] => false
  | [_] => false
  | c1 :: c2 :: rest =>
    (c1 == star && c2 == star && rest.isEmpty)
      || (isDotChar c1 && checkBoldTail (c2 :: rest))

/-- Formalization of the claim's span pattern (the split regex
`/(\*\*.*?\*\*)/` read as a whole-span match): an opening `**`, a middle of
`.`-matchable characters, and a closing `**`.  This definition follows the
spec's words, for stating the claim; the code's own check is
`startsWithBold`/`endsWithBold`. -/
def specBoldSpan : List Char → Bool
  | c1 :: c2 :: rest => c1 == star && c2 == star && checkBoldTail rest
  | _ => false

theorem checkBoldTail_decomp (l : List Char) (h : checkBoldTail l = true) :
    ∃ mid, l = mid ++ [star, star] := by
  induction l with
  | nil => simp [checkBoldTail] at h
  | cons c rest ih =>
    cases rest with
    | nil => simp [checkBoldTail] at h
    | cons d rest' =>
      rw [checkBoldTail] at h
      rcases (Bool.or_eq_true _ _).mp h with h1 | h2
      · have h1' : (c = star ∧ d = star) ∧ rest' = [] := by
          simpa [Bool.and_eq_true, List.isEmpty_iff] using h1
        obtain ⟨⟨hc, hd⟩, hr⟩ := h1'
        subst hc
        subst hd
        subst hr
        exact ⟨[], rfl⟩
      · have h2' : isDotChar c = true ∧ checkBoldTail (d :: rest') = true := by
          simpa [Bool.and_eq_true] using h2
        obtain ⟨mid, hm⟩ := ih h2'.2
        exact ⟨c :: mid, by simp [hm]⟩

theorem specBoldSpan_starts_ends (s : List Char) (h : specBoldSpan s = true) :
    startsWithBold s = true ∧ endsWithBold s = true := by
  cases s with
  | nil => simp [specBoldSpan] at h
  | cons c1 t =>
    cases t with
    | nil => simp [specBoldSpan] at h
    | cons c2 rest =>
      rw [specBoldSpan] at h
      have h' : (c1 = star ∧ c2 = star) ∧ checkBoldTail rest = true := by
        simpa [Bool.and_eq_true] using h
      obtain ⟨⟨h1, h2⟩, h3⟩ := h'
      obtain ⟨mid, hm⟩ := checkBoldTail_decomp rest h3
      subst h1
      subst h2
      subst hm
      refine ⟨by simp [startsWithBold], ?_⟩
      simp [endsWithBold, List.reverse_cons, List.reverse_append, startsWithBold]

/-- Claim C5 counterexample: the prose chunk consisting of exactly two
asterisks yields the single span `**`, which does not match the
two-asterisk-delimited pattern (the pattern needs both an opening and a
closing marker), yet the renderer emits it as an emphasized empty span —
not as the plain text `**` unchanged — so the claim fails at the concrete
input `**`. -/
theorem C5_counterexample :
    splitBold [star, star] = [[star, star]] ∧
    specBoldSpan [star, star] = false ∧
    classifySpan [star, star] = Inline.bold [] ∧
    Inline.bold [] ≠ Inline.plain [star, star] ∧
    render [star, star] = [Segment.prose [Inline.bold []]] := by
  decide

/-- Claim C5 (amended): each span of the bold split renders as emphasized
text exactly when it both starts and ends with `**` — the check the code
performs.  Spans matching the spec's pattern satisfy that check and render
emphasized with the surrounding asterisks stripped, as the claim said, but
so do some spans that do not match the pattern (such as `**` itself); every
span failing the starts/ends check renders as plain text unchanged, and a
prose chunk that is empty after trimming produces no output at all. -/
theorem C5_amended_bold_spans (part s : List Char) (_hs : s ∈ splitBold part) :
    (specBoldSpan s = true → classifySpan s = Inline.bold (strip2 s)) ∧
    ((startsWithBold s && endsWithBold s) = false →
      classifySpan s = Inline.plain s) ∧
    ((startsWithBold s && endsWithBold s) = true →
      classifySpan s = Inline.bold (strip2 s)) ∧
    (trimChars part = [] → proseChunkSegs part = []) ∧
    (trimChars part ≠ [] →
      proseChunkSegs part = [Segment.prose ((splitBold part).map classifySpan)]) := by
  refine ⟨?_, ?_, ?_, ?_, ?_⟩
  · intro h
    obtain ⟨h1, h2⟩ := specBoldSpan_starts_ends s h
    simp [classifySpan, h1, h2]
  · intro h
    simp [classifySpan, h]
  · intro h
    simp [classifySpan, h]
  · intro h
    simp [proseChunkSegs, h]
  · intro h
    simp [proseChunkSegs, h]

theorem C5_amended_witness :
    (("**b**").data) ∈ splitBold (("a**b**c").data) ∧
    classifySpan (("**b**").data) = Inline.bold (("b").data) := by
  refine ⟨by decide, ?_⟩
  have h := (C5_amended_bold_spans (("a**b**c").data) (("**b**").data)
    (by decide)).2.2.1 (by decide)
  exact h.trans (by decide)

end CodeCraft
